import Mathlib

/-
  Verification development for the QryptSecurity local random cache and
  key-derivation engine (qrypt-security 0.6.4, public headers).

  The embedding below follows the public headers under
  include/QryptSecurity (qryptsecurity.h, qryptsecurity_private.h,
  qryptsecurity_exceptions.h, qryptsecurity_logging.h).  The headers declare
  abstract interfaces (IKeyGenLocalClient, IKeyGenDistributedClient); the
  implementations behind them are not part of this source tree, so the
  behaviour of the cache store, the maintenance scheduler and the key
  derivation engine is modelled from the specification, as marked on each
  definition.  The logging helpers are implemented inline in the header and
  are embedded directly from the source.
-/

namespace QryptSecurity

/-- From qryptsecurity.h: enumeration of symmetric key modes
    (the NUM_SYMMETRIC_KEY_MODES count member is omitted). -/
inductive SymmetricKeyMode where
  | SYMMETRIC_KEY_MODE_AES_256
  | SYMMETRIC_KEY_MODE_OTP
  deriving DecidableEq, Repr

/-- From qryptsecurity_private.h: enumeration of cache state
    (the NUM_CACHE_STATES count member is omitted). -/
inductive CacheState where
  | CACHE_STATE_DOWNLOADING
  | CACHE_STATE_READY
  deriving DecidableEq, Repr

/-- From qryptsecurity_private.h: structure to store random location
    configurations.  `availableSize` is the maximum space to be used for
    downloaded random at this location. -/
structure LocationConfig where
  id : String
  path : String
  availableSize : Nat
  deriving DecidableEq, Repr

/-- From qryptsecurity_private.h: structure to store local random cache
    configurations. -/
structure CacheConfig where
  deviceSecret : List Nat
  locations : List LocationConfig
  maxNumCachedBytes : Nat
  minNumCachedBytes : Nat
  maintenanceInterval : Nat
  deriving DecidableEq, Repr

/-- From qryptsecurity_private.h: structure for cache status information. -/
structure CacheStatus where
  state : CacheState
  remainingCapacity : Nat
  totalDownloadedRandom : Nat
  deriving DecidableEq, Repr

/-- From qryptsecurity.h: structure to store symmetric key data returned by
    IKeyGenDistributedClient::genInit. -/
structure SymmetricKeyData where
  key : List Nat
  metadata : List Nat
  deriving DecidableEq, Repr

/-- From qryptsecurity_exceptions.h: the exception taxonomy.  Each
    constructor corresponds to one exception class derived from
    QryptSecurityException. -/
inductive QryptError where
  | UnknownError
  | InvalidArgument
  | SystemError
  | DeviceSecretFailed
  | CacheNotReady
  | CannotDownload
  | DataCorrupted
  | RandomPoolExpired
  | RandomPoolInactive
  | IncompatibleVersion
  deriving DecidableEq, Repr

namespace logging

/-- From qryptsecurity_logging.h: severity of a log. -/
inductive LogLevel where
  | QRYPTLIB_LOG_LEVEL_TRACE
  | QRYPTLIB_LOG_LEVEL_DEBUG
  | QRYPTLIB_LOG_LEVEL_INFO
  | QRYPTLIB_LOG_LEVEL_WARNING
  | QRYPTLIB_LOG_LEVEL_ERROR
  | QRYPTLIB_LOG_LEVEL_DISABLE
  deriving DecidableEq, Repr

/-- From qryptsecurity_logging.h: the LogLevelNames array. -/
def LogLevelNames : List String :=
  ["Trace", "Debug", "Info", "Warning", "Error", "Disable"]

/-- The value of static_cast int applied to a LogLevel enumerator
    (C++ enum class values are assigned 0,1,... in declaration order). -/
def LogLevel.toNat : LogLevel → Nat
  | .QRYPTLIB_LOG_LEVEL_TRACE => 0
  | .QRYPTLIB_LOG_LEVEL_DEBUG => 1
  | .QRYPTLIB_LOG_LEVEL_INFO => 2
  | .QRYPTLIB_LOG_LEVEL_WARNING => 3
  | .QRYPTLIB_LOG_LEVEL_ERROR => 4
  | .QRYPTLIB_LOG_LEVEL_DISABLE => 5

/-- From qryptsecurity_logging.h: getLogLevelText indexes LogLevelNames with
    static_cast int of the level.  The C++ array read has no bounds check;
    it is embedded as an optional lookup so that in-boundedness is the
    proposition that the result is `some`. -/
def getLogLevelText (logLevel : LogLevel) : Option String :=
  LogLevelNames.get? (LogLevel.toNat logLevel)

end logging

/-- Modelled from the spec: the CacheStore behind IKeyGenLocalClient is not
    in this source tree (only its interface is declared).  The RandomPool is
    an append-only sequence of random blocks plus a consumed offset; the
    pool is one logical store physically sharded across locations, so its
    unconsumed content is modelled as the flat byte log `poolData` together
    with `consumedOffset`, the number of bytes already consumed (and
    zeroized on disk).  The error-relevant conditions that the spec lists
    for consume are carried as fields: `everReady` records whether the pool
    has ever reached minimum readiness (it starts false and DOWNLOADING),
    `expired` whether the oldest unconsumed bytes exceed the staleness
    bound, `inactive` whether the configured locations are unreachable, and
    `corrupted` whether an integrity check fails. -/
structure CacheStoreState where
  poolData : List Nat
  consumedOffset : Nat
  everReady : Bool
  expired : Bool
  inactive : Bool
  corrupted : Bool
  deriving DecidableEq, Repr

/-- Modelled from the spec: remainingCapacity is the sum of unconsumed
    bytes across all location shards. -/
def remainingCapacity (st : CacheStoreState) : Nat :=
  st.poolData.length - st.consumedOffset

/-- The pool conditions under which the spec says consume succeeds: the
    pool has reached minimum readiness and is not expired, not inactive and
    not corrupted. -/
def flagsOk (st : CacheStoreState) : Bool :=
  st.everReady && !st.expired && !st.inactive && !st.corrupted

/-- Modelled from the spec: consume(numBytes) of the CacheStore, whose
    implementation is not in this source tree.  It atomically reserves and
    returns numBytes of not-yet-consumed random and immediately marks that
    range consumed.  Failures are checked in the order the spec lists them:
    CacheNotReady if the pool is still in its initial DOWNLOADING state and
    has never reached minimum readiness, RandomPoolExpired if the oldest
    unconsumed bytes exceed the staleness bound, RandomPoolInactive if the
    configured locations are unreachable, DataCorrupted on integrity-check
    failure; a call finding insufficient unconsumed bytes fails with
    CannotDownload (the spec names CannotDownload for a foreground call
    blocked by an empty pool).  On failure nothing is returned. -/
def consume (st : CacheStoreState) (numBytes : Nat) :
    Except QryptError (List Nat × CacheStoreState) :=
  if st.everReady = false then .error .CacheNotReady
  else if st.expired then .error .RandomPoolExpired
  else if st.inactive then .error .RandomPoolInactive
  else if st.corrupted then .error .DataCorrupted
  else if remainingCapacity st < numBytes then .error .CannotDownload
  else .ok ((st.poolData.drop st.consumedOffset).take numBytes,
            { st with consumedOffset := st.consumedOffset + numBytes })

/-- The byte range of the pool handed out by a successful consume call is
    the half-open interval starting at the consumed offset; a range is the
    pair (start, length). -/
def RangeDisjoint (a b : Nat × Nat) : Prop :=
  a.1 + a.2 ≤ b.1 ∨ b.1 + b.2 ≤ a.1

instance : DecidableRel RangeDisjoint := fun a b => by
  unfold RangeDisjoint; infer_instance

/-- Runs a sequence of consume calls, returning the byte ranges handed out
    (pairs of pool offset and length) and the final state; `none` when some
    call in the sequence fails. -/
def consumeSeq (st : CacheStoreState) :
    List Nat → Option (List (Nat × Nat) × CacheStoreState)
  | [] => some ([], st)
  | n :: ns =>
    match consume st n with
    | .error _ => none
    | .ok (_, st1) =>
      match consumeSeq st1 ns with
      | none => none
      | some (rs, st2) => some ((st.consumedOffset, n) :: rs, st2)

/-- The ranges produced by consecutive reservations of the given sizes
    starting at a given offset. -/
def rangesFrom (off : Nat) : List Nat → List (Nat × Nat)
  | [] => []
  | n :: ns => (off, n) :: rangesFrom (off + n) ns

/-- Modelled from the spec: wipe() of IKeyGenLocalClient, whose
    implementation is not in this source tree.  It deletes all pool data
    and associated metadata at every location; it is total (it never fails,
    in particular not on an already wiped cache). -/
def wipe (_st : CacheStoreState) : CacheStoreState :=
  { poolData := [], consumedOffset := 0, everReady := false,
    expired := false, inactive := false, corrupted := false }

/-- Modelled from the spec: checkCacheStatus() of IKeyGenLocalClient, whose
    implementation is not in this source tree.  The status is derived on
    demand: the state is READY exactly when the pool has reached minimum
    readiness at least once, the remaining capacity is the unconsumed byte
    count, and the total downloaded random is the length of the append-only
    download log. -/
def checkCacheStatus (st : CacheStoreState) : CacheStatus :=
  { state := if st.everReady then CacheState.CACHE_STATE_READY
             else CacheState.CACHE_STATE_DOWNLOADING,
    remainingCapacity := remainingCapacity st,
    totalDownloadedRandom := st.poolData.length }

/-- The AES-256 key size in bytes consumed by genSymmetricKey in AES mode. -/
def aesKeySizeBytes : Nat := 32

/-- Modelled from the spec: the two-argument overload
    IKeyGenLocalClient::genSymmetricKey(mode, keySize), whose implementation
    is not in this source tree.  In AES-256 mode it consumes exactly 32
    bytes from the CacheStore and returns them unmodified as the key; the
    keySize argument is ignored for SYMMETRIC_KEY_MODE_AES_256 (as the
    header documents).  In OTP mode it fails with InvalidArgument when
    keySize is zero and otherwise consumes exactly keySize bytes. -/
def genSymmetricKeySized (st : CacheStoreState) (mode : SymmetricKeyMode)
    (keySize : Nat) : Except QryptError (List Nat × CacheStoreState) :=
  match mode with
  | .SYMMETRIC_KEY_MODE_AES_256 => consume st aesKeySizeBytes
  | .SYMMETRIC_KEY_MODE_OTP =>
    if keySize = 0 then .error .InvalidArgument
    else consume st keySize

/-- Modelled from the spec: the one-argument overload
    IKeyGenLocalClient::genSymmetricKey(mode), whose implementation is not
    in this source tree; it behaves as the two-argument overload with no
    key size supplied (size zero). -/
def genSymmetricKey (st : CacheStoreState) (mode : SymmetricKeyMode) :
    Except QryptError (List Nat × CacheStoreState) :=
  genSymmetricKeySized st mode 0

/-- Modelled from the spec: the two-argument overload
    IKeyGenDistributedClient::genInit(mode, keySize), whose implementation
    is not in this source tree.  It produces a symmetric key for this
    client together with metadata for the other client; the metadata wire
    format is out of the spec's scope and is modelled as empty.  The header
    documents that the keySize argument is ignored for
    SYMMETRIC_KEY_MODE_AES_256. -/
def genInitSized (st : CacheStoreState) (mode : SymmetricKeyMode)
    (keySize : Nat) : Except QryptError (SymmetricKeyData × CacheStoreState) :=
  match mode with
  | .SYMMETRIC_KEY_MODE_AES_256 =>
    (consume st aesKeySizeBytes).map (fun p => ({ key := p.1, metadata := [] }, p.2))
  | .SYMMETRIC_KEY_MODE_OTP =>
    if keySize = 0 then .error .InvalidArgument
    else (consume st keySize).map (fun p => ({ key := p.1, metadata := [] }, p.2))

/-- Modelled from the spec: the one-argument overload
    IKeyGenDistributedClient::genInit(mode), whose implementation is not in
    this source tree; it behaves as the two-argument overload with no key
    size supplied (size zero). -/
def genInit (st : CacheStoreState) (mode : SymmetricKeyMode) :
    Except QryptError (SymmetricKeyData × CacheStoreState) :=
  genInitSized st mode 0

/-- Modelled from the spec: the at-rest encryption of persisted pool blocks
    under the device secret (the implementation is not in this source
    tree).  The cipher is modelled as a position-dependent keystream
    derived from the secret: byte i of the keystream is the secret byte at
    index i modulo the secret length (zero for an empty secret). -/
def keystreamAt (secret : List Nat) (i : Nat) : Nat :=
  secret.getD (i % secret.length) 0

/-- Modelled from the spec: encryption of a block under a device secret,
    as the bytewise XOR of the block with the keystream. -/
def encryptBytes (secret plain : List Nat) : List Nat :=
  (List.range plain.length).map (fun i => plain.getD i 0 ^^^ keystreamAt secret i)

/-- Modelled from the spec: decryption of a block under a device secret;
    the XOR stream cipher is its own inverse. -/
def decryptBytes (secret cipher : List Nat) : List Nat :=
  (List.range cipher.length).map (fun i => cipher.getD i 0 ^^^ keystreamAt secret i)

/-- Modelled from the spec: the keyed integrity tag stored alongside each
    shard, by which a device-secret mismatch is detected.  It is keyed by
    the secret and covers the ciphertext. -/
def keyedTag (secret cipher : List Nat) : List Nat :=
  secret ++ cipher

/-- Modelled from the spec: one persisted pool shard as stored on disk —
    the encrypted block bytes plus the keyed integrity tag. -/
structure Shard where
  cipher : List Nat
  tag : List Nat
  deriving DecidableEq, Repr

/-- Builds the shard persisted for a plaintext block under a secret. -/
def mkShard (secret plain : List Nat) : Shard :=
  let c := encryptBytes secret plain
  { cipher := c, tag := keyedTag secret c }

/-- Modelled from the spec: CacheStore.reEncrypt(oldSecret, newSecret),
    whose implementation is not in this source tree.  It decrypts the
    persisted blocks under oldSecret and re-encrypts them under newSecret;
    it fails with DeviceSecretFailed when oldSecret does not match what is
    on disk, detected via the keyed integrity tag stored alongside the
    shard. -/
def reEncrypt (oldSecret newSecret : List Nat) (sh : Shard) :
    Except QryptError Shard :=
  if sh.tag = keyedTag oldSecret sh.cipher then
    .ok (mkShard newSecret (decryptBytes oldSecret sh.cipher))
  else .error .DeviceSecretFailed

/-- Modelled from the spec: opening a persisted shard under a secret (as
    done when the cache is reopened after a restart): the keyed integrity
    tag is checked and the block is decrypted; a secret that does not match
    what is on disk fails with DeviceSecretFailed. -/
def openShard (secret : List Nat) (sh : Shard) : Except QryptError (List Nat) :=
  if sh.tag = keyedTag secret sh.cipher then .ok (decryptBytes secret sh.cipher)
  else .error .DeviceSecretFailed

/-- Modelled from the spec: IKeyGenLocalClient::updateDeviceSecret, whose
    implementation is not in this source tree; it delegates to
    CacheStore.reEncrypt. -/
def updateDeviceSecret (deviceSecret newDeviceSecret : List Nat) (sh : Shard) :
    Except QryptError Shard :=
  reEncrypt deviceSecret newDeviceSecret sh

/-- Modelled from the spec: one location shard of the CacheStore with its
    configuration and currently stored (encrypted, unconsumed) bytes. -/
structure LocShard where
  cfg : LocationConfig
  stored : List Nat
  deriving DecidableEq, Repr

/-- Modelled from the spec: CacheStore.appendBlock(locationId, bytes),
    whose implementation is not in this source tree.  It encrypts the bytes
    under the current device secret and appends them to the pool shard at
    the location; it fails with SystemError if the location's availableSize
    would be exceeded, in which case the shard is left unchanged. -/
def appendBlock (secret : List Nat) (sh : LocShard) (bytes : List Nat) :
    Except QryptError LocShard :=
  if sh.cfg.availableSize < sh.stored.length + bytes.length then
    .error .SystemError
  else
    .ok { sh with stored := sh.stored ++ encryptBytes secret bytes }

/-- Modelled from the spec: consumption from a location shard removes the
    consumed bytes from the shard (erase-on-read). -/
def consumeShard (sh : LocShard) (n : Nat) : LocShard :=
  { sh with stored := sh.stored.drop n }

/-- Modelled from the spec: wiping a location shard deletes its pool data. -/
def wipeShard (sh : LocShard) : LocShard :=
  { sh with stored := [] }

/-- Modelled from the spec: the maintenance scheduler's per-location view —
    the location configuration and the number of usable random bytes
    currently stored there. -/
structure SchedLoc where
  cfg : LocationConfig
  used : Nat
  deriving DecidableEq, Repr

/-- Free space of a location: its availableSize minus the bytes stored. -/
def freeSpace (l : SchedLoc) : Nat :=
  l.cfg.availableSize - l.used

/-- The priority order used to distribute maintenance writes: locations
    with more free space come first. -/
def moreFree (a b : SchedLoc) : Prop :=
  freeSpace b ≤ freeSpace a

instance : DecidableRel moreFree := fun _ _ => Nat.decLe _ _

instance : IsTotal SchedLoc moreFree :=
  ⟨fun a b => Nat.le_total (freeSpace b) (freeSpace a)⟩

instance : IsTrans SchedLoc moreFree :=
  ⟨fun _ _ _ h1 h2 => Nat.le_trans h2 h1⟩

/-- Sum of bytes stored across locations (the aggregate remaining
    capacity the scheduler compares against the thresholds). -/
def sumUsed (locs : List SchedLoc) : Nat :=
  (locs.map SchedLoc.used).sum

/-- Sum of free space across locations. -/
def sumFree (locs : List SchedLoc) : Nat :=
  (locs.map freeSpace).sum

/-- Sum of the availableSize caps across locations. -/
def sumCaps (locs : List SchedLoc) : Nat :=
  (locs.map (fun l => l.cfg.availableSize)).sum

/-- Modelled from the spec: the scheduler sorts the locations so that the
    location with the most free space comes first. -/
def sortByFreeDesc (locs : List SchedLoc) : List SchedLoc :=
  locs.insertionSort moreFree

/-- Modelled from the spec: greedy distribution of a downloaded amount
    over the locations in priority order — each location in turn receives
    as much as fits (up to its free space), until the amount is spent. -/
def greedyFill (amount : Nat) : List SchedLoc → List SchedLoc
  | [] => []
  | x :: xs =>
    let put := min amount (freeSpace x)
    { x with used := x.used + put } :: greedyFill (amount - put) xs

/-- Modelled from the spec: the aggregate state the maintenance scheduler
    maintains — the per-location fill levels, the cache state shown in
    CacheStatus, and the total downloaded random counter. -/
structure SchedState where
  locs : List SchedLoc
  state : CacheState
  totalDownloaded : Nat
  deriving DecidableEq, Repr

/-- Modelled from the spec: one maintenance tick with a fault-free Random
    Supply Service, whose implementation is not in this source tree.  The
    scheduler reads the remaining capacity; if it is below
    minNumCachedBytes it fetches the amount sized to bring the total up to
    maxNumCachedBytes and distributes the writes across the locations in
    priority order (most free space first, each filled until full or the
    amount is spent).  The cache state transitions from DOWNLOADING to
    READY the first time the remaining capacity reaches minNumCachedBytes,
    and once READY it stays READY. -/
def tickLocs (cfg : CacheConfig) (s : SchedState) : List SchedLoc :=
  if sumUsed s.locs < cfg.minNumCachedBytes then
    greedyFill (cfg.maxNumCachedBytes - sumUsed s.locs) (sortByFreeDesc s.locs)
  else s.locs

/-- The state after one maintenance tick: the refilled locations, the
    possibly promoted cache state, and the updated download counter. -/
def tick (cfg : CacheConfig) (s : SchedState) : SchedState :=
  { locs := tickLocs cfg s,
    state := if s.state = CacheState.CACHE_STATE_READY ∨
                cfg.minNumCachedBytes ≤ sumUsed (tickLocs cfg s) then
               CacheState.CACHE_STATE_READY
             else CacheState.CACHE_STATE_DOWNLOADING,
    totalDownloaded := s.totalDownloaded +
      (sumUsed (tickLocs cfg s) - sumUsed s.locs) }

/-- Modelled from the spec: foreground consumption as seen by the
    scheduler removes bytes from the locations (front to back) and does not
    touch the cache state. -/
def drainLocs (n : Nat) : List SchedLoc → List SchedLoc
  | [] => []
  | x :: xs =>
    let d := min n x.used
    { x with used := x.used - d } :: drainLocs (n - d) xs

/-- A foreground consume event applied to the scheduler's state. -/
def drainState (s : SchedState) (n : Nat) : SchedState :=
  { s with locs := drainLocs n s.locs }

/-- The events that change the scheduler-visible cache state over time: a
    maintenance tick, or a foreground consumption of n bytes. -/
inductive MaintEvent where
  | tickEv
  | consumeEv (n : Nat)
  deriving DecidableEq, Repr

/-- One step of the cache execution under an event. -/
def stepEv (cfg : CacheConfig) (s : SchedState) : MaintEvent → SchedState
  | .tickEv => tick cfg s
  | .consumeEv n => drainState s n

/-- The trajectory of cache states along a sequence of events. -/
def stateTraj (cfg : CacheConfig) (s : SchedState) : List MaintEvent → List CacheState
  | [] => [s.state]
  | e :: es => s.state :: stateTraj cfg (stepEv cfg s e) es

/-- Counts the DOWNLOADING to READY transitions along a cache-state
    trajectory. -/
def transCount : List CacheState → Nat
  | a :: b :: rest =>
    (if a = CacheState.CACHE_STATE_DOWNLOADING ∧ b = CacheState.CACHE_STATE_READY
     then 1 else 0) + transCount (b :: rest)
  | _ => 0

/-- A concrete healthy cache state with forty downloaded bytes, used to
    instantiate theorems with hypotheses. -/
def sampleReadyState : CacheStoreState :=
  { poolData := List.range 40, consumedOffset := 0, everReady := true,
    expired := false, inactive := false, corrupted := false }

/-- A concrete cache state that is still in its initial DOWNLOADING phase
    and at the same time fails its integrity check: two of the spec's
    failure conditions hold at once. -/
def corruptedDownloadingState : CacheStoreState :=
  { poolData := [0], consumedOffset := 0, everReady := false,
    expired := false, inactive := false, corrupted := true }

/-- A concrete location shard with capacity four and two stored bytes,
    used to instantiate theorems with hypotheses. -/
def sampleShard : LocShard :=
  { cfg := { id := "loc1", path := "p1", availableSize := 4 }, stored := [9, 9] }

/-- A concrete empty cache state that has never reached readiness. -/
def neverReadyState : CacheStoreState :=
  { poolData := [], consumedOffset := 0, everReady := false,
    expired := false, inactive := false, corrupted := false }

/-- A concrete ready cache state whose oldest unconsumed bytes exceed the
    staleness bound. -/
def expiredReadyState : CacheStoreState :=
  { poolData := [1, 2], consumedOffset := 0, everReady := true,
    expired := true, inactive := false, corrupted := false }

/-- A concrete ready cache state that fails its integrity check. -/
def corruptedReadyState : CacheStoreState :=
  { poolData := [1, 2], consumedOffset := 0, everReady := true,
    expired := false, inactive := false, corrupted := true }

/-- The configuration of the spec's convergence scenario: min 1000, max
    5000, one-second maintenance interval, two locations whose caps sum to
    at least 5000. -/
def convergenceConfig : CacheConfig :=
  { deviceSecret := [],
    locations := [{ id := "loc1", path := "p1", availableSize := 3000 },
                  { id := "loc2", path := "p2", availableSize := 2500 }],
    maxNumCachedBytes := 5000,
    minNumCachedBytes := 1000,
    maintenanceInterval := 1 }

/-- The empty starting state of the convergence scenario. -/
def convergenceStart : SchedState :=
  { locs := [{ cfg := { id := "loc1", path := "p1", availableSize := 3000 }, used := 0 },
             { cfg := { id := "loc2", path := "p2", availableSize := 2500 }, used := 0 }],
    state := CacheState.CACHE_STATE_DOWNLOADING,
    totalDownloaded := 0 }

/-- The converged state of the convergence scenario: 5000 bytes cached
    (3000 at the larger location, 2000 at the smaller), READY. -/
def convergenceFull : SchedState :=
  { locs := [{ cfg := { id := "loc1", path := "p1", availableSize := 3000 }, used := 3000 },
             { cfg := { id := "loc2", path := "p2", availableSize := 2500 }, used := 2000 }],
    state := CacheState.CACHE_STATE_READY,
    totalDownloaded := 5000 }

end QryptSecurity

namespace QryptSecurity

theorem flagsOk_split (st : CacheStoreState) (hf : flagsOk st = true) :
    st.everReady = true ∧ st.expired = false ∧ st.inactive = false ∧
      st.corrupted = false := by
  have h : ((st.everReady = true ∧ st.expired = false) ∧ st.inactive = false) ∧
      st.corrupted = false := by
    simpa [flagsOk, Bool.and_eq_true, Bool.not_eq_true'] using hf
  exact ⟨h.1.1.1, h.1.1.2, h.1.2, h.2⟩

theorem consume_ok_of_flags (st : CacheStoreState) (n : Nat)
    (hf : flagsOk st = true) (hn : n ≤ remainingCapacity st) :
    consume st n = .ok ((st.poolData.drop st.consumedOffset).take n,
      { st with consumedOffset := st.consumedOffset + n }) := by
  obtain ⟨h1, h2, h3, h4⟩ := flagsOk_split st hf
  simp [consume, h1, h2, h3, h4, Nat.not_lt.mpr hn]

theorem consumeSeq_spec (ns : List Nat) (st : CacheStoreState)
    (hf : flagsOk st = true) (hsum : ns.sum ≤ remainingCapacity st) :
    ∃ st2, consumeSeq st ns = some (rangesFrom st.consumedOffset ns, st2) ∧
      st2.consumedOffset = st.consumedOffset + ns.sum ∧
      st2.poolData = st.poolData ∧ flagsOk st2 = true := by
  induction ns generalizing st with
  | nil => exact ⟨st, by simp [consumeSeq, rangesFrom], by simp, rfl, hf⟩
  | cons n ns ih =>
    have hcons : (n :: ns).sum = n + ns.sum := List.sum_cons
    have hn : n ≤ remainingCapacity st := by omega
    have hc := consume_ok_of_flags st n hf hn
    have hf1 : flagsOk { st with consumedOffset := st.consumedOffset + n } = true := hf
    have hsum1 : ns.sum ≤
        remainingCapacity { st with consumedOffset := st.consumedOffset + n } := by
      simp only [remainingCapacity] at hsum ⊢
      omega
    obtain ⟨st2, he, ho, hp, hf2⟩ := ih _ hf1 hsum1
    refine ⟨st2, ?_, by simp at ho; omega, hp, hf2⟩
    simp [consumeSeq, hc, he, rangesFrom]

theorem rangesFrom_start_le (off : Nat) (ns : List Nat) :
    ∀ r ∈ rangesFrom off ns, off ≤ r.1 := by
  induction ns generalizing off with
  | nil => simp [rangesFrom]
  | cons n ns ih =>
    intro r hr
    simp only [rangesFrom, List.mem_cons] at hr
    rcases hr with h | h
    · subst h; exact Nat.le_refl _
    · exact Nat.le_trans (Nat.le_add_right off n) (ih (off + n) r h)

theorem rangesFrom_pairwise (off : Nat) (ns : List Nat) :
    (rangesFrom off ns).Pairwise RangeDisjoint := by
  induction ns generalizing off with
  | nil => simp [rangesFrom]
  | cons n ns ih =>
    refine List.Pairwise.cons (fun r hr => ?_) (ih (off + n))
    exact Or.inl (rangesFrom_start_le (off + n) ns r hr)

/-- C1: for every sequence of consume(n) calls whose requested totals do
    not exceed the remaining capacity of the pool (and whose pool is ready
    and healthy), every call succeeds, the ranges handed out are the
    consecutive reservations starting at the consumed offset, and no two
    calls return overlapping byte ranges of the pool: each consume reserves
    its range and marks it consumed by advancing the offset before
    returning, so every random byte is handed out at most once. -/
theorem consume_entropy_reuse_freedom (st : CacheStoreState) (ns : List Nat)
    (hf : flagsOk st = true) (hsum : ns.sum ≤ remainingCapacity st) :
    ∃ st2, consumeSeq st ns = some (rangesFrom st.consumedOffset ns, st2) ∧
      (rangesFrom st.consumedOffset ns).Pairwise RangeDisjoint ∧
      st2.consumedOffset = st.consumedOffset + ns.sum := by
  obtain ⟨st2, he, ho, _, _⟩ := consumeSeq_spec ns st hf hsum
  exact ⟨st2, he, rangesFrom_pairwise _ _, ho⟩

/-- Witness for C1 at a concrete pool of six bytes and requests [2, 3]. -/
theorem consume_entropy_reuse_freedom_witness :
    ∃ st2, consumeSeq
        { poolData := [10, 11, 12, 13, 14, 15], consumedOffset := 0,
          everReady := true, expired := false, inactive := false,
          corrupted := false } [2, 3] = some (rangesFrom 0 [2, 3], st2) ∧
      (rangesFrom 0 [2, 3]).Pairwise RangeDisjoint ∧
      st2.consumedOffset = 0 + [2, 3].sum :=
  consume_entropy_reuse_freedom
    { poolData := [10, 11, 12, 13, 14, 15], consumedOffset := 0,
      everReady := true, expired := false, inactive := false,
      corrupted := false } [2, 3] (by decide) (by decide)

/-- C2: with sufficient ready random, genSymmetricKey in AES-256 mode
    returns exactly 32 bytes, which are the consumed pool bytes unmodified;
    genSymmetricKey in OTP mode with k greater than zero returns exactly k
    bytes; and for every state, genSymmetricKey in OTP mode with k = 0
    fails with InvalidArgument. -/
theorem genSymmetricKey_sizes (st : CacheStoreState) (k : Nat) :
    (flagsOk st = true → aesKeySizeBytes ≤ remainingCapacity st →
      genSymmetricKeySized st .SYMMETRIC_KEY_MODE_AES_256 k =
        .ok ((st.poolData.drop st.consumedOffset).take 32,
          { st with consumedOffset := st.consumedOffset + 32 }) ∧
      ((st.poolData.drop st.consumedOffset).take 32).length = 32) ∧
    (flagsOk st = true → 0 < k → k ≤ remainingCapacity st →
      ∃ bs st2, genSymmetricKeySized st .SYMMETRIC_KEY_MODE_OTP k =
          .ok (bs, st2) ∧ bs.length = k) ∧
    genSymmetricKeySized st .SYMMETRIC_KEY_MODE_OTP 0 =
      .error .InvalidArgument := by
  refine ⟨fun hf h32 => ⟨?_, ?_⟩, fun hf hk hkr => ?_, rfl⟩
  · simpa [genSymmetricKeySized, aesKeySizeBytes] using
      consume_ok_of_flags st 32 hf h32
  · simp only [remainingCapacity] at h32
    simp only [List.length_take, List.length_drop, aesKeySizeBytes] at h32 ⊢
    omega
  · refine ⟨(st.poolData.drop st.consumedOffset).take k,
      { st with consumedOffset := st.consumedOffset + k }, ?_, ?_⟩
    · have hc := consume_ok_of_flags st k hf hkr
      simp [genSymmetricKeySized, Nat.pos_iff_ne_zero.mp hk, hc]
    · simp only [remainingCapacity] at hkr
      simp only [List.length_take, List.length_drop]
      omega

/-- Witness for C2 at a concrete ready cache of forty bytes. -/
theorem genSymmetricKey_sizes_witness :
    (genSymmetricKeySized sampleReadyState .SYMMETRIC_KEY_MODE_AES_256 7 =
        .ok ((sampleReadyState.poolData.drop sampleReadyState.consumedOffset).take 32,
          { sampleReadyState with
              consumedOffset := sampleReadyState.consumedOffset + 32 }) ∧
      ((sampleReadyState.poolData.drop sampleReadyState.consumedOffset).take 32).length = 32) ∧
    (∃ bs st2, genSymmetricKeySized sampleReadyState .SYMMETRIC_KEY_MODE_OTP 5 =
        .ok (bs, st2) ∧ bs.length = 5) ∧
    genSymmetricKeySized sampleReadyState .SYMMETRIC_KEY_MODE_OTP 0 =
      .error .InvalidArgument :=
  ⟨(genSymmetricKey_sizes sampleReadyState 7).1 (by decide) (by decide),
   (genSymmetricKey_sizes sampleReadyState 5).2.1 (by decide) (by decide) (by decide),
   (genSymmetricKey_sizes sampleReadyState 0).2.2⟩

theorem consume_ne_invalidArgument (st : CacheStoreState) (n : Nat) :
    consume st n ≠ .error .InvalidArgument := by
  unfold consume
  repeat' split
  all_goals simp

/-- C9: the keySize argument is ignored in AES-256 mode: the two-argument
    genSymmetricKey in AES-256 mode returns the same result as the
    one-argument genSymmetricKey from the same state (in particular keySize
    zero does not raise InvalidArgument in AES-256 mode), and the same
    holds for IKeyGenDistributedClient genInit. -/
theorem genSymmetricKey_keySize_ignored_aes (st : CacheStoreState) (k : Nat) :
    genSymmetricKeySized st .SYMMETRIC_KEY_MODE_AES_256 k =
      genSymmetricKey st .SYMMETRIC_KEY_MODE_AES_256 ∧
    genInitSized st .SYMMETRIC_KEY_MODE_AES_256 k =
      genInit st .SYMMETRIC_KEY_MODE_AES_256 ∧
    genSymmetricKeySized st .SYMMETRIC_KEY_MODE_AES_256 0 ≠
      .error .InvalidArgument ∧
    genInitSized st .SYMMETRIC_KEY_MODE_AES_256 0 ≠
      .error .InvalidArgument := by
  refine ⟨rfl, rfl, consume_ne_invalidArgument st aesKeySizeBytes, ?_⟩
  simp only [genInitSized]
  cases hc : consume st aesKeySizeBytes with
  | error e =>
    have hne := consume_ne_invalidArgument st aesKeySizeBytes
    rw [hc] at hne
    simpa [Except.map] using fun h => hne (by rw [h])
  | ok p => simp [Except.map]

/-- Witness for C9 at a concrete ready cache and keySize 9. -/
theorem genSymmetricKey_keySize_ignored_aes_witness :
    genSymmetricKeySized sampleReadyState .SYMMETRIC_KEY_MODE_AES_256 9 =
      genSymmetricKey sampleReadyState .SYMMETRIC_KEY_MODE_AES_256 ∧
    genInitSized sampleReadyState .SYMMETRIC_KEY_MODE_AES_256 9 =
      genInit sampleReadyState .SYMMETRIC_KEY_MODE_AES_256 ∧
    genSymmetricKeySized sampleReadyState .SYMMETRIC_KEY_MODE_AES_256 0 ≠
      .error .InvalidArgument ∧
    genInitSized sampleReadyState .SYMMETRIC_KEY_MODE_AES_256 0 ≠
      .error .InvalidArgument :=
  genSymmetricKey_keySize_ignored_aes sampleReadyState 9

/-- C7: after wipe(), checkCacheStatus() reports remainingCapacity zero
    and state CACHE_STATE_DOWNLOADING; wipe is idempotent — it is a total
    operation (it cannot fail, in particular not on an already wiped
    cache) and wiping an already wiped cache leaves the same all-empty
    state. -/
theorem wipe_status_and_idempotent (st : CacheStoreState) :
    checkCacheStatus (wipe st) =
      { state := CacheState.CACHE_STATE_DOWNLOADING, remainingCapacity := 0,
        totalDownloadedRandom := 0 } ∧
    wipe (wipe st) = wipe st :=
  ⟨rfl, rfl⟩

/-- C5 counterexample: in the state where the pool is still in its initial
    DOWNLOADING phase and the integrity check also fails, consume fails
    with CacheNotReady and not with DataCorrupted, refuting the claimed
    equivalence that consume raises DataCorrupted if and only if an
    integrity check fails. -/
theorem consume_error_kinds_counterexample :
    corruptedDownloadingState.corrupted = true ∧
    consume corruptedDownloadingState 1 = .error .CacheNotReady ∧
    consume corruptedDownloadingState 1 ≠ .error .DataCorrupted := by
  refine ⟨rfl, rfl, fun h => ?_⟩
  rw [show consume corruptedDownloadingState 1 = .error .CacheNotReady from rfl] at h
  simp at h

/-- C5 (amended): consume checks the spec's failure conditions in the
    order the spec lists them, so each failure kind is raised exactly when
    its condition holds and no earlier-listed condition holds: CacheNotReady
    when the pool has never reached minimum readiness; RandomPoolExpired
    when it has but the staleness bound is exceeded; RandomPoolInactive
    when additionally not expired but the locations are unreachable;
    DataCorrupted when additionally not inactive but the integrity check
    fails.  On success the full requested key material is returned (and on
    failure none, the error carrying no bytes). -/
theorem consume_error_kinds (st : CacheStoreState) (n : Nat) :
    (consume st n = .error .CacheNotReady ↔ st.everReady = false) ∧
    (consume st n = .error .RandomPoolExpired ↔
      st.everReady = true ∧ st.expired = true) ∧
    (consume st n = .error .RandomPoolInactive ↔
      st.everReady = true ∧ st.expired = false ∧ st.inactive = true) ∧
    (consume st n = .error .DataCorrupted ↔
      st.everReady = true ∧ st.expired = false ∧ st.inactive = false ∧
        st.corrupted = true) ∧
    (∀ bs st2, consume st n = .ok (bs, st2) → bs.length = n) := by
  rcases st with ⟨data, off, er, ex, ia, co⟩
  cases er <;> cases ex <;> cases ia <;> cases co <;>
    simp only [consume, remainingCapacity] <;>
    norm_num <;>
    (try split) <;>
    simp_all

/-- Witness for C5 exercising three of the failure equivalences at
    concrete states. -/
theorem consume_error_kinds_witness :
    consume neverReadyState 1 = .error .CacheNotReady ∧
    consume expiredReadyState 1 = .error .RandomPoolExpired ∧
    consume corruptedReadyState 1 = .error .DataCorrupted :=
  ⟨(consume_error_kinds neverReadyState 1).1.mpr rfl,
   (consume_error_kinds expiredReadyState 1).2.1.mpr ⟨rfl, rfl⟩,
   (consume_error_kinds corruptedReadyState 1).2.2.2.1.mpr ⟨rfl, rfl, rfl, rfl⟩⟩

theorem encryptBytes_length (secret plain : List Nat) :
    (encryptBytes secret plain).length = plain.length := by
  simp [encryptBytes]

theorem decryptBytes_encryptBytes (secret plain : List Nat) :
    decryptBytes secret (encryptBytes secret plain) = plain := by
  apply List.ext_getElem
  · simp [decryptBytes, encryptBytes]
  · intro i h1 h2
    have hlen : i < plain.length := by
      simpa [decryptBytes, encryptBytes] using h1
    simp [decryptBytes, encryptBytes, List.getD_eq_getElem?_getD,
      List.getElem?_eq_getElem, hlen, Nat.xor_cancel_right]

theorem keyedTag_secret_injective (s1 s2 c : List Nat)
    (h : keyedTag s1 c = keyedTag s2 c) : s1 = s2 :=
  List.append_cancel_right h

/-- C3: updateDeviceSecret(old, new) applied to a shard persisted under
    old succeeds and re-persists it under new; reopening the re-encrypted
    shard under new yields exactly the unconsumed pool content that was
    persisted before the rotation (re-encrypt then decrypt is the identity
    on the block), and any subsequent attempt to use the stale old secret —
    opening the shard or rotating again from old — fails with
    DeviceSecretFailed. -/
theorem updateDeviceSecret_roundtrip (oldSecret newSecret plain : List Nat)
    (hne : oldSecret ≠ newSecret) :
    updateDeviceSecret oldSecret newSecret (mkShard oldSecret plain) =
      .ok (mkShard newSecret plain) ∧
    openShard newSecret (mkShard newSecret plain) = .ok plain ∧
    openShard oldSecret (mkShard newSecret plain) =
      .error .DeviceSecretFailed ∧
    (∀ s, reEncrypt oldSecret s (mkShard newSecret plain) =
      .error .DeviceSecretFailed) := by
  have htag : ∀ s c, (⟨c, keyedTag s c⟩ : Shard).tag = keyedTag s c := fun _ _ => rfl
  have hstale : keyedTag newSecret (encryptBytes newSecret plain) ≠
      keyedTag oldSecret (encryptBytes newSecret plain) := fun h =>
    hne (keyedTag_secret_injective newSecret oldSecret _ h).symm
  refine ⟨?_, ?_, ?_, fun s => ?_⟩
  · simp [updateDeviceSecret, reEncrypt, mkShard, decryptBytes_encryptBytes]
  · simp [openShard, mkShard, decryptBytes_encryptBytes]
  · simp [openShard, mkShard, hstale]
  · simp [reEncrypt, mkShard, hstale]

/-- Witness for C3 with old secret [1], new secret [2] and a two-byte
    block. -/
theorem updateDeviceSecret_roundtrip_witness :
    updateDeviceSecret [1] [2] (mkShard [1] [5, 6]) = .ok (mkShard [2] [5, 6]) ∧
    openShard [2] (mkShard [2] [5, 6]) = .ok [5, 6] ∧
    openShard [1] (mkShard [2] [5, 6]) = .error .DeviceSecretFailed ∧
    reEncrypt [1] [3] (mkShard [2] [5, 6]) = .error .DeviceSecretFailed :=
  have h := updateDeviceSecret_roundtrip [1] [2] [5, 6] (by decide)
  ⟨h.1, h.2.1, h.2.2.1, h.2.2.2 [3]⟩

/-- C8: the bytes stored at a location never exceed its availableSize:
    appendBlock fails with SystemError exactly when the append would
    exceed the location's availableSize (leaving the shard unchanged, no
    new shard being produced), a successful append re-establishes the
    bound, and consumption and wiping preserve it, so the per-location
    capacity bound is an invariant preserved by every operation. -/
theorem appendBlock_capacity_invariant (secret : List Nat) (sh : LocShard)
    (bytes : List Nat) (n : Nat) :
    (appendBlock secret sh bytes = .error .SystemError ↔
      sh.cfg.availableSize < sh.stored.length + bytes.length) ∧
    (∀ sh2, appendBlock secret sh bytes = .ok sh2 →
      sh2.stored.length ≤ sh2.cfg.availableSize ∧
      sh2.stored = sh.stored ++ encryptBytes secret bytes) ∧
    (sh.stored.length ≤ sh.cfg.availableSize →
      (consumeShard sh n).stored.length ≤ (consumeShard sh n).cfg.availableSize) ∧
    (wipeShard sh).stored.length ≤ (wipeShard sh).cfg.availableSize := by
  refine ⟨?_, fun sh2 h2 => ?_, fun hle => ?_, Nat.zero_le _⟩
  · unfold appendBlock
    split <;> simp_all
  · unfold appendBlock at h2
    split at h2
    · exact absurd h2 (by simp)
    · obtain rfl : { sh with stored := sh.stored ++ encryptBytes secret bytes } = sh2 := by
        simpa using h2
      refine ⟨?_, rfl⟩
      simp only [List.length_append, encryptBytes_length]
      omega
  · simp only [consumeShard, List.length_drop]
    omega

/-- Witness for C8 at a concrete shard with capacity four holding two
    bytes: a three-byte append is rejected, a two-byte append keeps the
    bound, consumption keeps the bound. -/
theorem appendBlock_capacity_invariant_witness :
    appendBlock [] sampleShard [1, 2, 3] = .error .SystemError ∧
    ((consumeShard sampleShard 1).stored.length ≤
      (consumeShard sampleShard 1).cfg.availableSize) ∧
    (wipeShard sampleShard).stored.length ≤
      (wipeShard sampleShard).cfg.availableSize :=
  have h := appendBlock_capacity_invariant [] sampleShard [1, 2, 3] 1
  ⟨h.1.mpr (by decide), h.2.2.1 (by decide), h.2.2.2⟩

theorem stepEv_sticky (cfg : CacheConfig) (s : SchedState) (e : MaintEvent)
    (h : s.state = CacheState.CACHE_STATE_READY) :
    (stepEv cfg s e).state = CacheState.CACHE_STATE_READY := by
  cases e with
  | tickEv => simp [stepEv, tick, h]
  | consumeEv n => exact h

theorem stateTraj_head (cfg : CacheConfig) (s : SchedState)
    (evs : List MaintEvent) : ∃ t, stateTraj cfg s evs = s.state :: t := by
  cases evs <;> exact ⟨_, rfl⟩

theorem transCount_ready_zero (cfg : CacheConfig) (s : SchedState)
    (evs : List MaintEvent) (h : s.state = CacheState.CACHE_STATE_READY) :
    transCount (stateTraj cfg s evs) = 0 := by
  induction evs generalizing s with
  | nil => simp [stateTraj, transCount]
  | cons e es ih =>
    obtain ⟨t, ht⟩ := stateTraj_head cfg (stepEv cfg s e) es
    have h0 := ih (stepEv cfg s e) (stepEv_sticky cfg s e h)
    show transCount (s.state :: stateTraj cfg (stepEv cfg s e) es) = 0
    rw [ht] at h0 ⊢
    simp [transCount, h, h0]

theorem transCount_le_one (cfg : CacheConfig) (s : SchedState)
    (evs : List MaintEvent) : transCount (stateTraj cfg s evs) ≤ 1 := by
  induction evs generalizing s with
  | nil => simp [stateTraj, transCount]
  | cons e es ih =>
    obtain ⟨t, ht⟩ := stateTraj_head cfg (stepEv cfg s e) es
    show transCount (s.state :: stateTraj cfg (stepEv cfg s e) es) ≤ 1
    rw [ht]
    by_cases hs : (stepEv cfg s e).state = CacheState.CACHE_STATE_READY
    · have h0 := transCount_ready_zero cfg (stepEv cfg s e) es hs
      rw [ht] at h0
      simp only [transCount, h0]
      split <;> omega
    · have hD : (stepEv cfg s e).state = CacheState.CACHE_STATE_DOWNLOADING := by
        cases hq : (stepEv cfg s e).state
        · rfl
        · exact absurd hq hs
      have h1 := ih (stepEv cfg s e)
      rw [ht] at h1
      simp only [transCount, hD]
      have : ¬(s.state = CacheState.CACHE_STATE_DOWNLOADING ∧
          CacheState.CACHE_STATE_DOWNLOADING = CacheState.CACHE_STATE_READY) := by
        rintro ⟨-, h⟩; exact CacheState.noConfusion h
      rw [if_neg this]
      simpa [transCount, hD] using h1

/-- C4: the READY state is sticky: in every execution, once the cache
    state is READY no event (maintenance tick or consumption) ever returns
    it to DOWNLOADING, even if remaining capacity drops below
    minNumCachedBytes; consumption events never change the state, a
    maintenance tick from DOWNLOADING transitions to READY exactly when
    the post-maintenance remaining capacity reaches minNumCachedBytes (so
    the transition happens at the first such tick), and along any event
    trajectory the DOWNLOADING-to-READY transition occurs at most once. -/
theorem cacheState_downloading_ready_once (cfg : CacheConfig)
    (s : SchedState) (evs : List MaintEvent) (n : Nat) :
    (s.state = CacheState.CACHE_STATE_READY →
      ∀ e, (stepEv cfg s e).state = CacheState.CACHE_STATE_READY) ∧
    (stepEv cfg s (.consumeEv n)).state = s.state ∧
    (s.state = CacheState.CACHE_STATE_DOWNLOADING →
      ((stepEv cfg s .tickEv).state = CacheState.CACHE_STATE_READY ↔
        cfg.minNumCachedBytes ≤ sumUsed (tickLocs cfg s))) ∧
    transCount (stateTraj cfg s evs) ≤ 1 := by
  refine ⟨fun h e => stepEv_sticky cfg s e h, rfl, fun hD => ?_,
    transCount_le_one cfg s evs⟩
  simp [stepEv, tick, hD]

/-- Witness for C4: in the convergence scenario the first tick promotes
    the cache to READY, and a trajectory that drains the pool below the
    minimum afterwards has exactly the one transition. -/
theorem cacheState_downloading_ready_once_witness :
    (stepEv convergenceConfig convergenceStart .tickEv).state =
      CacheState.CACHE_STATE_READY ∧
    transCount (stateTraj convergenceConfig convergenceStart
      [.tickEv, .consumeEv 4500, .tickEv]) ≤ 1 :=
  ⟨((cacheState_downloading_ready_once convergenceConfig convergenceStart
      [] 0).2.2.1 rfl).mpr (by decide),
   (cacheState_downloading_ready_once convergenceConfig convergenceStart
      [.tickEv, .consumeEv 4500, .tickEv] 0).2.2.2⟩

theorem sumUsed_greedyFill (amount : Nat) (locs : List SchedLoc) :
    sumUsed (greedyFill amount locs) = sumUsed locs + min amount (sumFree locs) := by
  induction locs generalizing amount with
  | nil => simp [greedyFill, sumUsed, sumFree]
  | cons x xs ih =>
    simp only [greedyFill, sumUsed, sumFree, List.map_cons, List.sum_cons] at ih ⊢
    rw [ih]
    omega

theorem sumUsed_sortByFreeDesc (locs : List SchedLoc) :
    sumUsed (sortByFreeDesc locs) = sumUsed locs :=
  ((List.perm_insertionSort moreFree locs).map SchedLoc.used).sum_eq

theorem sumFree_sortByFreeDesc (locs : List SchedLoc) :
    sumFree (sortByFreeDesc locs) = sumFree locs :=
  ((List.perm_insertionSort moreFree locs).map freeSpace).sum_eq

theorem sumFree_of_bounded (locs : List SchedLoc)
    (h : ∀ l ∈ locs, l.used ≤ l.cfg.availableSize) :
    sumUsed locs ≤ sumCaps locs ∧
      sumFree locs = sumCaps locs - sumUsed locs := by
  induction locs with
  | nil => simp [sumUsed, sumFree, sumCaps]
  | cons x xs ih =>
    have hx := h x (List.mem_cons_self x xs)
    obtain ⟨ih1, ih2⟩ := ih (fun l hl => h l (List.mem_cons_of_mem x hl))
    simp only [sumUsed, sumFree, sumCaps, freeSpace, List.map_cons,
      List.sum_cons] at ih1 ih2 ⊢
    omega

theorem tick_remaining_eq (cfg : CacheConfig) (s : SchedState)
    (hcap : ∀ l ∈ s.locs, l.used ≤ l.cfg.availableSize)
    (hmin : sumUsed s.locs < cfg.minNumCachedBytes)
    (hminmax : cfg.minNumCachedBytes ≤ cfg.maxNumCachedBytes) :
    sumUsed (tick cfg s).locs = min cfg.maxNumCachedBytes (sumCaps s.locs) := by
  show sumUsed (tickLocs cfg s) = _
  rw [tickLocs, if_pos hmin, sumUsed_greedyFill, sumUsed_sortByFreeDesc,
    sumFree_sortByFreeDesc]
  obtain ⟨h1, h2⟩ := sumFree_of_bounded s.locs hcap
  omega

theorem sortByFreeDesc_head_max (locs : List SchedLoc) (hne : locs ≠ []) :
    ∃ h t, sortByFreeDesc locs = h :: t ∧
      ∀ x ∈ locs, freeSpace x ≤ freeSpace h := by
  have hperm : List.Perm (sortByFreeDesc locs) locs :=
    List.perm_insertionSort moreFree locs
  have hsorted : List.Sorted moreFree (sortByFreeDesc locs) :=
    List.sorted_insertionSort moreFree locs
  cases hq : sortByFreeDesc locs with
  | nil =>
    rw [hq] at hperm
    exact absurd hperm.symm.eq_nil hne
  | cons h t =>
    rw [hq] at hperm hsorted
    refine ⟨h, t, rfl, fun x hx => ?_⟩
    have hx2 : x ∈ h :: t := hperm.symm.subset hx
    rcases List.mem_cons.mp hx2 with rfl | hx3
    · exact Nat.le_refl _
    · exact (List.sorted_cons.mp hsorted).1 x hx3

/-- C6: on a maintenance tick at which remaining capacity is below
    minNumCachedBytes, the scheduler fetches and writes random until the
    remaining capacity equals maxNumCachedBytes, or all locations are full
    (the resulting capacity is the minimum of maxNumCachedBytes and the
    total location capacity); writes are distributed across locations in
    priority order — the location with the most free space is filled
    first, receiving as much of the downloaded amount as fits; and in the
    spec's scenario (min 1000, max 5000, fault-free supply, starting from
    empty) the remaining capacity converges to 5000 from the first tick
    on. -/
theorem maintenance_fill_to_max (cfg : CacheConfig) (s : SchedState)
    (amount : Nat) (locs : List SchedLoc) (k : Nat) :
    ((∀ l ∈ s.locs, l.used ≤ l.cfg.availableSize) →
      sumUsed s.locs < cfg.minNumCachedBytes →
      cfg.minNumCachedBytes ≤ cfg.maxNumCachedBytes →
      sumUsed (tick cfg s).locs = min cfg.maxNumCachedBytes (sumCaps s.locs)) ∧
    (locs ≠ [] → ∃ h t, sortByFreeDesc locs = h :: t ∧
      (∀ x ∈ locs, freeSpace x ≤ freeSpace h) ∧
      greedyFill amount (h :: t) =
        { h with used := h.used + min amount (freeSpace h) } ::
          greedyFill (amount - min amount (freeSpace h)) t) ∧
    (1 ≤ k →
      sumUsed ((tick convergenceConfig)^[k] convergenceStart).locs = 5000) := by
  refine ⟨tick_remaining_eq cfg s, fun hne => ?_, fun hk => ?_⟩
  · obtain ⟨h, t, hq, hmax⟩ := sortByFreeDesc_head_max locs hne
    exact ⟨h, t, hq, hmax, rfl⟩
  · have h1 : tick convergenceConfig convergenceStart = convergenceFull := by
      decide
    have h2 : tick convergenceConfig convergenceFull = convergenceFull := by
      decide
    have hfix : ∀ j, (tick convergenceConfig)^[j] convergenceFull =
        convergenceFull := by
      intro j
      induction j with
      | zero => rfl
      | succ j ih => rw [Function.iterate_succ_apply, h2, ih]
    obtain ⟨j, rfl⟩ : ∃ j, k = j + 1 := ⟨k - 1, by omega⟩
    rw [Function.iterate_succ_apply, h1, hfix j]
    decide

/-- Witness for C6 in the convergence scenario: the first tick from empty
    fills to min(max, total capacity) = 5000, the larger location is
    served first, and after three ticks the capacity is still 5000. -/
theorem maintenance_fill_to_max_witness :
    sumUsed (tick convergenceConfig convergenceStart).locs =
      min convergenceConfig.maxNumCachedBytes
        (sumCaps convergenceStart.locs) ∧
    (∃ h t, sortByFreeDesc convergenceStart.locs = h :: t ∧
      (∀ x ∈ convergenceStart.locs, freeSpace x ≤ freeSpace h) ∧
      greedyFill 5000 (h :: t) =
        { h with used := h.used + min 5000 (freeSpace h) } ::
          greedyFill (5000 - min 5000 (freeSpace h)) t) ∧
    sumUsed ((tick convergenceConfig)^[3] convergenceStart).locs = 5000 :=
  have h := maintenance_fill_to_max convergenceConfig convergenceStart 5000
    convergenceStart.locs 3
  ⟨h.1 (by decide) (by decide) (by decide), h.2.1 (by decide), h.2.2 (by decide)⟩

/-- C10: getLogLevelText is total on the LogLevel enumeration: for every
    declared LogLevel value (including QRYPTLIB_LOG_LEVEL_DISABLE) the index
    static_cast int of the level is within the bounds of the LogLevelNames
    array, and the returned name is the one corresponding to that level, so
    the lookup never reads out of bounds. -/
theorem getLogLevelText_total :
    (∀ l : logging.LogLevel, logging.LogLevel.toNat l < logging.LogLevelNames.length) ∧
    logging.getLogLevelText .QRYPTLIB_LOG_LEVEL_TRACE = some "Trace" ∧
    logging.getLogLevelText .QRYPTLIB_LOG_LEVEL_DEBUG = some "Debug" ∧
    logging.getLogLevelText .QRYPTLIB_LOG_LEVEL_INFO = some "Info" ∧
    logging.getLogLevelText .QRYPTLIB_LOG_LEVEL_WARNING = some "Warning" ∧
    logging.getLogLevelText .QRYPTLIB_LOG_LEVEL_ERROR = some "Error" ∧
    logging.getLogLevelText .QRYPTLIB_LOG_LEVEL_DISABLE = some "Disable" := by
  refine ⟨fun l => ?_, rfl, rfl, rfl, rfl, rfl, rfl⟩
  cases l <;> decide

end QryptSecurity
